import Mathlib

/-!
Verification of the sandboxed-execution and test-repair core of the Autonoma
repository, shallowly embedded in Lean 4.

The embedding follows the source files:
* `src/autonoma/utils/code_executor.py` (class CodeExecutor),
* `src/autonoma/core/tester.py` (class Tester),
* `src/autonoma/core/agent.py` (AutonomaAgent.modify_code).

Python dictionaries are modelled as insertion-ordered association lists with
unique keys, Python sets as lists with membership, exceptions as `Except`,
the child process spawned by `subprocess.run` as an oracle parameter giving
its observable outcome, and `sys.modules` plus the temporary-directory pool
as explicit state threaded through the functions.
-/

set_option autoImplicit false

namespace Autonoma

/-! ## Association-list model of Python dictionaries -/

abbrev Dict (α : Type) := List (String × α)

def dictGet {α : Type} (k : String) : Dict α → Option α
  | [] => none
  | p :: rest => if p.1 = k then some p.2 else dictGet k rest

def dictMem {α : Type} (k : String) (l : Dict α) : Bool :=
  l.any (fun p => p.1 == k)

def dictInsert {α : Type} (k : String) (v : α) (l : Dict α) : Dict α :=
  if dictMem k l then l.map (fun p => if p.1 = k then (k, v) else p)
  else l ++ [(k, v)]

def dictDel {α : Type} (k : String) (l : Dict α) : Dict α :=
  l.filter (fun p => p.1 != k)

def dictKeys {α : Type} (l : Dict α) : List String :=
  l.map Prod.fst

theorem dictMem_iff {α : Type} (k : String) (l : Dict α) :
    dictMem k l = true ↔ k ∈ dictKeys l := by
  induction l with
  | nil => simp [dictMem, dictKeys]
  | cons p rest ih =>
      simp only [dictMem, dictKeys, List.any_cons, List.map_cons, List.mem_cons,
        Bool.or_eq_true, beq_iff_eq] at *
      constructor
      · rintro (h | h)
        · exact Or.inl h.symm
        · exact Or.inr (ih.mp h)
      · rintro (h | h)
        · exact Or.inl h.symm
        · exact Or.inr (ih.mpr h)

theorem dictGet_append_left {α : Type} (k : String) (l l2 : Dict α) (v : α)
    (h : dictGet k l = some v) : dictGet k (l ++ l2) = some v := by
  induction l with
  | nil => simp [dictGet] at h
  | cons p rest ih =>
      simp only [dictGet, List.cons_append] at *
      by_cases hp : p.1 = k
      · simpa [hp] using h
      · simpa [hp] using ih (by simpa [hp] using h)

theorem dictGet_dictDel {α : Type} (k nm : String) (l : Dict α) :
    dictGet nm (dictDel k l) = if k = nm then none else dictGet nm l := by
  induction l with
  | nil => simp [dictGet, dictDel]
  | cons p rest ih =>
      by_cases hk : p.1 = k
      · have hfil : dictDel k (p :: rest) = dictDel k rest := by
          simp [dictDel, List.filter, hk]
        rw [hfil, ih]
        by_cases hnm : k = nm
        · simp [hnm]
        · have hpnm : ¬ p.1 = nm := by rw [hk]; exact hnm
          simp [dictGet, hnm, hpnm]
      · have hb : (p.1 != k) = true := by simp [hk]
        have hfil : dictDel k (p :: rest) = p :: dictDel k rest := by
          simp [dictDel, List.filter, hb]
        rw [hfil]
        by_cases hnm : p.1 = nm
        · have hknm : ¬ k = nm := fun h => hk (by rw [hnm, h])
          simp [dictGet, hnm, hknm]
        · simp only [dictGet, if_neg hnm]
          rw [ih]

/-! ## Substring matching (Python `needle in haystack` on strings) -/

def isPre : List Char → List Char → Bool
  | [], _ => true
  | _ :: _, [] => false
  | a :: as, b :: bs => a == b && isPre as bs

def containsSub (needle : List Char) : List Char → Bool
  | [] => isPre needle []
  | c :: rest => isPre needle (c :: rest) || containsSub needle rest

def strContains (hay needle : String) : Bool :=
  containsSub needle.toList hay.toList

theorem isPre_iff (n : List Char) : ∀ h, isPre n h = true ↔ ∃ t, h = n ++ t := by
  induction n with
  | nil => intro h; simp [isPre]
  | cons a as ih =>
      intro h
      cases h with
      | nil =>
          simp only [isPre, List.cons_append]
          constructor
          · intro hf; cases hf
          · rintro ⟨t, ht⟩; cases ht
      | cons b bs =>
          simp only [isPre, Bool.and_eq_true, beq_iff_eq, ih, List.cons_append,
            List.cons.injEq]
          constructor
          · rintro ⟨rfl, t, rfl⟩; exact ⟨t, rfl, rfl⟩
          · rintro ⟨t, rfl, rfl⟩; exact ⟨rfl, t, rfl⟩

theorem containsSub_iff (n : List Char) :
    ∀ h, containsSub n h = true ↔ ∃ pre post, h = pre ++ n ++ post := by
  intro h
  induction h with
  | nil =>
      simp only [containsSub, isPre_iff]
      constructor
      · rintro ⟨t, ht⟩; exact ⟨[], t, by simpa using ht⟩
      · rintro ⟨pre, post, hp⟩
        have h2 := List.append_eq_nil.mp hp.symm
        have h3 := List.append_eq_nil.mp h2.1
        exact ⟨post, by simp [h3.2, h2.2]⟩
  | cons c rest ih =>
      simp only [containsSub, Bool.or_eq_true, isPre_iff, ih]
      constructor
      · rintro (⟨t, ht⟩ | ⟨pre, post, hp⟩)
        · exact ⟨[], t, by simpa using ht⟩
        · exact ⟨c :: pre, post, by simp [hp]⟩
      · rintro ⟨pre, post, hp⟩
        cases pre with
        | nil => exact Or.inl ⟨post, by simpa using hp⟩
        | cons x xs =>
            right
            simp only [List.cons_append, List.cons.injEq] at hp
            exact ⟨xs, post, hp.2⟩

/-! ## Model of Python source snippets and of `analyze_imports`

A snippet carries its raw text together with the outcome of `ast.parse`:
`none` models a snippet on which `ast.parse` raises a SyntaxError, and
`some stmts` gives the import-bearing statements in tree-walk order
(all other node kinds are skipped by `analyze_imports`, so they are not
represented).
-/

/-- A dotted module name `a.b.c`; the source keeps only `split(".")[0]`,
modelled here as the `head` field. -/
structure Dotted where
  head : String
  tail : List String
deriving DecidableEq, Repr

/-- One import-bearing statement, as in the `ast.Import` and
`ast.ImportFrom` branches of `analyze_imports`; `impFrom none` models
`from . import x`, whose `node.module` is `None`. -/
inductive ImportStmt where
  | imp (names : List Dotted)
  | impFrom (module : Option Dotted)
deriving DecidableEq, Repr

/-- A Python snippet: its text and the result of parsing it. -/
structure PyCode where
  text : String
  parsed : Option (List ImportStmt)
deriving DecidableEq, Repr

/-- Python exceptions that the modelled functions can raise. -/
inductive PyExn where
  | parseError
  | valueError (msg : String)
  | validationError
deriving DecidableEq, Repr

/-- Names contributed by one statement:
`alias.name.split(".")[0]` for each alias of an `ast.Import`, and
`node.module.split(".")[0]` for an `ast.ImportFrom` with a module. -/
def stmtNames : ImportStmt → List String
  | .imp names => names.map Dotted.head
  | .impFrom (some m) => [m.head]
  | .impFrom none => []

/-- The `imports` list accumulated by the walk in `analyze_imports`. -/
def importedNames (stmts : List ImportStmt) : List String :=
  stmts.foldl (fun acc s => acc ++ stmtNames s) []

/-- CodeExecutor.analyze_imports: parse the code and collect the first
segment of every imported name; `ast.parse` raises on invalid syntax. -/
def analyze_imports (code : PyCode) : Except PyExn (List String) :=
  match code.parsed with
  | none => .error .parseError
  | some stmts => .ok (importedNames stmts)

/-! ## Model of the CodeExecutor state and operations -/

/-- A stand-in (MagicMock) module object; `id` models object identity,
taken fresh from a counter when the stand-in is created. -/
structure Mock where
  id : Nat
  name : String
deriving DecidableEq, Repr

/-- The mutable state of one CodeExecutor instance: the persistent
`self.mocked_modules` dictionary, a freshness counter for mock object
identities, and the `self.stdlib_modules` set computed at `__init__`
from `pkgutil.iter_modules()` and `sys.builtin_module_names`. -/
structure ExecutorState where
  mocked_modules : Dict Mock
  nextId : Nat
  stdlib_modules : List String
deriving DecidableEq, Repr

/-- A fresh CodeExecutor: empty mock cache, host-provided stdlib set. -/
def initExecutor (stdlib : List String) : ExecutorState :=
  ⟨[], 0, stdlib⟩

/-- CodeExecutor.is_external_module: not external when the name is in the
stdlib set or is a substring of some path key of the codebase. -/
def is_external_module (st : ExecutorState) (module_name : String)
    (codebase : Dict String) : Bool :=
  if module_name ∈ st.stdlib_modules then false
  else if codebase.any (fun kv => strContains kv.1 module_name) then false
  else true

/-- CodeExecutor.create_mock_module: builds a new MagicMock carrying the
module's name; the fresh `id` models the new object's identity. -/
def create_mock_module (st : ExecutorState) (module_name : String) :
    Mock × ExecutorState :=
  (⟨st.nextId, module_name⟩, { st with nextId := st.nextId + 1 })

/-- One iteration of the loop in CodeExecutor.mock_external_modules:
register a stand-in for `module_name` when it is external and not yet
in the cache. -/
def registerMockStep (codebase : Dict String) (st : ExecutorState)
    (module_name : String) : ExecutorState :=
  if is_external_module st module_name codebase && !dictMem module_name st.mocked_modules then
    let p := create_mock_module st module_name
    { p.2 with mocked_modules := p.2.mocked_modules ++ [(module_name, p.1)] }
  else st

/-- The loop of CodeExecutor.mock_external_modules over the list of
analyzed names. -/
def registerMocks (st : ExecutorState) (names : List String)
    (codebase : Dict String) : ExecutorState :=
  names.foldl (registerMockStep codebase) st

/-- CodeExecutor.mock_external_modules: analyze the code (which may raise
a parse error) and register a stand-in for every external import. -/
def mock_external_modules (st : ExecutorState) (code : PyCode)
    (codebase : Dict String) : Except PyExn ExecutorState :=
  match analyze_imports code with
  | .error e => .error e
  | .ok names => .ok (registerMocks st names codebase)

/-- An entry of `sys.modules`: a real module of the host runtime or an
installed stand-in. -/
inductive ModVal where
  | real (id : Nat)
  | standIn (m : Mock)
deriving DecidableEq, Repr

abbrev SysModules := Dict ModVal

/-- CodeExecutor.patch_modules: `sys.modules[name] = mock` for every
cached stand-in. -/
def patch_modules (st : ExecutorState) (sysm : SysModules) : SysModules :=
  st.mocked_modules.foldl (fun s p => dictInsert p.1 (ModVal.standIn p.2) s) sysm

/-- CodeExecutor.unpatch_modules: `del sys.modules[name]` for every cached
stand-in name still present. -/
def unpatch_modules (st : ExecutorState) (sysm : SysModules) : SysModules :=
  st.mocked_modules.foldl (fun s p => dictDel p.1 s) sysm

/-! ## Model of the sandbox run -/

/-- The filesystem state relevant to the sandbox: the set of live
temporary directories (by identifier) and a freshness counter, modelling
`tempfile.TemporaryDirectory`. -/
structure World where
  dirs : List Nat
  nextDir : Nat
deriving DecidableEq, Repr

/-- The observable outcome of the spawned child process
(`subprocess.run` with `timeout=10`): it finished with an exit status and
captured streams, it exceeded the wall-clock budget
(`subprocess.TimeoutExpired`), or the spawn itself raised some other
exception caught by the `except Exception` arm. -/
inductive SpawnOutcome where
  | finished (returncode : Int) (stdout stderr : String)
  | timedOut
  | raisedExn (msg : String)
deriving DecidableEq, Repr

/-- ExecutionResult from `autonoma/models/result.py`. -/
structure ExecutionResult where
  success : Bool
  output : String
  mocked_modules : List String
deriving DecidableEq, Repr

/-- The wall-clock budget passed to `subprocess.run` in CodeExecutor.run. -/
def executionTimeout : Nat := 10

/-- Everything observable after a call to CodeExecutor.run: the returned
value or propagated exception, the executor state, `sys.modules`, the
filesystem, and the identifier of the scoped temporary directory. -/
structure RunOut where
  result : Except PyExn ExecutionResult
  state : ExecutorState
  sysm : SysModules
  world : World
  tempDir : Nat

/-- CodeExecutor.run. The temporary directory is created on entry and
removed on every exit path by the context manager. Writing the codebase
files and `__main__.py` is modelled as total. `mock_external_modules`
and `patch_modules` run before the `try` block, so a parse error there
propagates out of `run`; inside the `try` block the child-process
outcome is converted to an ExecutionResult, with `subprocess.TimeoutExpired`
and any other exception caught, and `unpatch_modules` runs in the
`finally` arm. -/
def run (spawn : SpawnOutcome) (st : ExecutorState) (code : PyCode)
    (codebase : Dict String) (sysm : SysModules) (w : World) : RunOut :=
  let d := w.nextDir
  let w1 : World := ⟨w.dirs ++ [d], w.nextDir + 1⟩
  match analyze_imports code with
  | .error e =>
      ⟨.error e, st, sysm, ⟨w1.dirs.filter (fun x => x != d), w1.nextDir⟩, d⟩
  | .ok names =>
      let st1 := registerMocks st names codebase
      let sys1 := patch_modules st1 sysm
      let res : ExecutionResult :=
        match spawn with
        | .finished rc out errOut =>
            ⟨rc == 0, if rc == 0 then out else errOut, dictKeys st1.mocked_modules⟩
        | .timedOut =>
            ⟨false, "Execution timed out", dictKeys st1.mocked_modules⟩
        | .raisedExn msg =>
            ⟨false, msg, dictKeys st1.mocked_modules⟩
      let sys2 := unpatch_modules st1 sys1
      ⟨.ok res, st1, sys2, ⟨w1.dirs.filter (fun x => x != d), w1.nextDir⟩, d⟩

/-! ## Model of the Tester (`autonoma/core/tester.py`) -/

/-- CodeFile from `autonoma/models/code.py`. -/
structure CodeFile where
  path : String
  content : String
deriving DecidableEq, Repr

/-- CodeChange from `autonoma/models/code.py`. -/
structure CodeChange where
  code : String
  path : String
deriving DecidableEq, Repr

/-- GeneratedCode from `autonoma/models/code.py`. -/
structure GeneratedCode where
  code_changes : List CodeChange
deriving DecidableEq, Repr

/-- TestCode from `autonoma/models/test.py`; the `test_code` text is
carried as a PyCode, since the executor parses it. -/
structure TestCode where
  test_code : PyCode
  test_path : String
  original_code_path : String
deriving DecidableEq, Repr

/-- TestCodeResponse from `autonoma/models/test.py`. -/
structure TestCodeResponse where
  tests : List TestCode
deriving DecidableEq, Repr

/-- TestResult from `autonoma/models/result.py`. -/
structure TestResult where
  success : Bool
  message : String
  test_code : String
  original_code_path : String
deriving DecidableEq, Repr

/-- The raw reply of the language model to the test-generation prompt, as
seen by `json.loads` and the pydantic validation in
Tester.generate_test_code: it parses and validates, it is not valid
JSON, or it is JSON of the wrong shape. -/
inductive LLMResponse where
  | valid (tests : List TestCode)
  | badJson (raw : String)
  | badShape (raw : String)
deriving DecidableEq, Repr

/-- Tester.generate_test_code: `json.loads` failure is re-raised as a
ValueError with the raw response in the message; a response that is JSON
but not of the TestCodeResponse shape raises a pydantic validation error,
which is not caught. -/
def generate_test_code (response : LLMResponse) : Except PyExn TestCodeResponse :=
  match response with
  | .valid ts => .ok ⟨ts⟩
  | .badJson raw =>
      .error (.valueError ("Failed to parse LLM response as JSON. Raw response: " ++ raw))
  | .badShape _ => .error .validationError

/-- The dict comprehension over the codebase in Tester.run_tests. -/
def toDict (files : List CodeFile) : Dict String :=
  files.foldl (fun d f => dictInsert f.path f.content d) []

/-- Overlaying the code changes onto the codebase dictionary, last write
wins, as in the inner loop of Tester.run_tests. -/
def applyChanges (base : Dict String) (changes : List CodeChange) : Dict String :=
  changes.foldl (fun d c => dictInsert c.path c.code d) base

/-- Observable outcome of Tester.run_tests: the two result lists and the
final executor, module-table and filesystem state. -/
structure TesterOut where
  unsuccessful : List TestResult
  successful : List TestResult
  state : ExecutorState
  sysm : SysModules
  world : World

/-- The per-test loop of Tester.run_tests. `spawnFor i` is the child
process outcome of the i-th test's sandbox run. An exception raised by
`CodeExecutor.run` propagates out of the loop. -/
def runTestsLoop (spawnFor : Nat → SpawnOutcome) (updated : Dict String) :
    Nat → List TestCode → ExecutorState → SysModules → World → Except PyExn TesterOut
  | _, [], st, sysm, w => .ok ⟨[], [], st, sysm, w⟩
  | idx, t :: ts, st, sysm, w =>
      let o := run (spawnFor idx) st t.test_code updated sysm w
      match o.result with
      | .error e => .error e
      | .ok r =>
          let tr : TestResult := ⟨r.success, r.output, t.test_code.text, t.original_code_path⟩
          match runTestsLoop spawnFor updated (idx + 1) ts o.state o.sysm o.world with
          | .error e => .error e
          | .ok rest =>
              if r.success then
                .ok ⟨rest.unsuccessful, tr :: rest.successful, rest.state, rest.sysm, rest.world⟩
              else
                .ok ⟨tr :: rest.unsuccessful, rest.successful, rest.state, rest.sysm, rest.world⟩

/-- Tester.run_tests: generate the tests (which may raise), then run each
test against the codebase overlaid with the code changes, partitioning
the outcomes into unsuccessful and successful lists. The overlay does
not depend on the test, so building it once is equivalent to the
per-iteration rebuild in the source. -/
def run_tests (response : LLMResponse) (spawnFor : Nat → SpawnOutcome)
    (modified_code : GeneratedCode) (codebase : List CodeFile)
    (st : ExecutorState) (sysm : SysModules) (w : World) : Except PyExn TesterOut :=
  match generate_test_code response with
  | .error e => .error e
  | .ok resp =>
      runTestsLoop spawnFor (applyChanges (toDict codebase) modified_code.code_changes)
        0 resp.tests st sysm w

/-! ## Model of the repair loop (AutonomaAgent.modify_code) -/

/-- The inner `for test in unsuccessful_tests` loop of modify_code:
each failing test yields a repair request conditioned on the current
code, the test's code and its message; the running code is replaced by
each revision in turn. `repairFn` is the code-generation collaborator
(CoderAgent.modify_code_based_on_test with the task fixed). -/
def repairRound (repairFn : GeneratedCode → String → String → GeneratedCode)
    (code : GeneratedCode) (failing : List TestResult) : GeneratedCode :=
  failing.foldl (fun c t => repairFn c t.test_code t.message) code

/-- The sequence of revisions produced by one repair round, one per
failing test, in the order the tests were returned. -/
def repairRevisions (repairFn : GeneratedCode → String → String → GeneratedCode)
    (code : GeneratedCode) : List TestResult → List GeneratedCode
  | [] => []
  | t :: ts =>
      let c1 := repairFn code t.test_code t.message
      c1 :: repairRevisions repairFn c1 ts

/-- Observable state at exit of the `while` loop of modify_code: the final
code, the iteration counter, and the result lists of the last executed
`run_tests` call (`none` when the loop body never ran, mirroring that the
Python locals would then be unbound). -/
structure LoopOut where
  finalCode : GeneratedCode
  iterations : Nat
  lastRun : Option (List TestResult × List TestResult)
deriving DecidableEq, Repr

/-- The `while iteration_count < max_iterations` loop of modify_code, with
`fuel = cap - iteration_count` as the structural measure. `runTestsFn` is
the Tester collaborator, `repairFn` the coder collaborator. -/
def modifyLoopAux (runTestsFn : GeneratedCode → List TestResult × List TestResult)
    (repairFn : GeneratedCode → String → String → GeneratedCode) :
    Nat → Nat → GeneratedCode → Option (List TestResult × List TestResult) → LoopOut
  | 0, count, code, last => ⟨code, count, last⟩
  | fuel + 1, count, code, _ =>
      let r := runTestsFn code
      if r.1.isEmpty then ⟨code, count, some r⟩
      else modifyLoopAux runTestsFn repairFn fuel (count + 1) (repairRound repairFn code r.1) (some r)

/-- The repair loop of modify_code with iteration cap `cap` (the source
fixes `max_iterations = 3`) starting from the freshly generated code. -/
def modify_code_loop (runTestsFn : GeneratedCode → List TestResult × List TestResult)
    (repairFn : GeneratedCode → String → String → GeneratedCode)
    (cap : Nat) (code : GeneratedCode) : LoopOut :=
  modifyLoopAux runTestsFn repairFn cap 0 code none

/-- The iteration cap hard-coded in AutonomaAgent.modify_code. -/
def max_iterations : Nat := 3

/-! ## Helper lemmas about the sandbox run -/

theorem run_result_eq (spawn : SpawnOutcome) (st : ExecutorState) (code : PyCode)
    (codebase : Dict String) (sysm : SysModules) (w : World) (stmts : List ImportStmt)
    (hp : code.parsed = some stmts) :
    (run spawn st code codebase sysm w).result = Except.ok
      (match spawn with
        | .finished rc out errOut =>
            ⟨rc == 0, if rc == 0 then out else errOut,
              dictKeys (registerMocks st (importedNames stmts) codebase).mocked_modules⟩
        | .timedOut =>
            ⟨false, "Execution timed out",
              dictKeys (registerMocks st (importedNames stmts) codebase).mocked_modules⟩
        | .raisedExn msg =>
            ⟨false, msg,
              dictKeys (registerMocks st (importedNames stmts) codebase).mocked_modules⟩) := by
  cases spawn <;> simp [run, analyze_imports, hp]

theorem run_state_eq (spawn : SpawnOutcome) (st : ExecutorState) (code : PyCode)
    (codebase : Dict String) (sysm : SysModules) (w : World) (stmts : List ImportStmt)
    (hp : code.parsed = some stmts) :
    (run spawn st code codebase sysm w).state = registerMocks st (importedNames stmts) codebase ∧
    (run spawn st code codebase sysm w).sysm =
      unpatch_modules (registerMocks st (importedNames stmts) codebase)
        (patch_modules (registerMocks st (importedNames stmts) codebase) sysm) := by
  cases spawn <;> simp [run, analyze_imports, hp]

theorem run_unparsable_eq (spawn : SpawnOutcome) (st : ExecutorState) (code : PyCode)
    (codebase : Dict String) (sysm : SysModules) (w : World) (hp : code.parsed = none) :
    (run spawn st code codebase sysm w).result = .error .parseError ∧
    (run spawn st code codebase sysm w).state = st ∧
    (run spawn st code codebase sysm w).sysm = sysm := by
  simp [run, analyze_imports, hp]

theorem run_tempdir_removed (spawn : SpawnOutcome) (st : ExecutorState) (code : PyCode)
    (codebase : Dict String) (sysm : SysModules) (w : World) :
    (run spawn st code codebase sysm w).tempDir ∉ (run spawn st code codebase sysm w).world.dirs := by
  cases hp : code.parsed with
  | none => simp [run, analyze_imports, hp, List.mem_filter]
  | some stmts => cases spawn <;> simp [run, analyze_imports, hp, List.mem_filter]

theorem dictGet_foldl_del_none (nm : String) :
    ∀ (ps : List (String × Mock)) (s : SysModules),
      dictGet nm s = none → dictGet nm (ps.foldl (fun s p => dictDel p.1 s) s) = none := by
  intro ps
  induction ps with
  | nil => intro s h; simpa using h
  | cons p rest ih =>
      intro s h
      simp only [List.foldl_cons]
      apply ih
      rw [dictGet_dictDel]
      by_cases hk : p.1 = nm <;> simp [hk, h]

theorem dictGet_foldl_del (nm : String) :
    ∀ (ps : List (String × Mock)) (s : SysModules),
      nm ∈ ps.map Prod.fst → dictGet nm (ps.foldl (fun s p => dictDel p.1 s) s) = none := by
  intro ps
  induction ps with
  | nil => intro s h; simp at h
  | cons p rest ih =>
      intro s h
      simp only [List.map_cons, List.mem_cons] at h
      simp only [List.foldl_cons]
      rcases h with h | h
      · apply dictGet_foldl_del_none
        rw [dictGet_dictDel]
        simp [h]
      · exact ih _ h

theorem any_strContains_iff (codebase : Dict String) (module_name : String) :
    codebase.any (fun kv => strContains kv.1 module_name) = true ↔
      ∃ p ∈ dictKeys codebase, ∃ pre post,
        p.toList = pre ++ module_name.toList ++ post := by
  simp only [List.any_eq_true, strContains, containsSub_iff, dictKeys, List.mem_map]
  constructor
  · rintro ⟨kv, hkv, pre, post, h⟩
    exact ⟨kv.1, ⟨kv, hkv, rfl⟩, pre, post, h⟩
  · rintro ⟨p, ⟨kv, hkv, rfl⟩, pre, post, h⟩
    exact ⟨kv, hkv, pre, post, h⟩

theorem mem_keys_registerMocks (st : ExecutorState) (names : List String)
    (codebase : Dict String) (nm : String) (h : nm ∈ dictKeys st.mocked_modules) :
    nm ∈ dictKeys (registerMocks st names codebase).mocked_modules := by
  induction names generalizing st with
  | nil => exact h
  | cons n rest ih =>
      rw [show registerMocks st (n :: rest) codebase =
        registerMocks (registerMockStep codebase st n) rest codebase from rfl]
      apply ih
      unfold registerMockStep
      split
      · simp only [dictKeys, create_mock_module, List.map_append, List.mem_append]
        exact Or.inl h
      · exact h

theorem dictGet_registerMocks (st : ExecutorState) (names : List String)
    (codebase : Dict String) (nm : String) (m : Mock)
    (h : dictGet nm st.mocked_modules = some m) :
    dictGet nm (registerMocks st names codebase).mocked_modules = some m := by
  induction names generalizing st with
  | nil => exact h
  | cons n rest ih =>
      rw [show registerMocks st (n :: rest) codebase =
        registerMocks (registerMockStep codebase st n) rest codebase from rfl]
      apply ih
      unfold registerMockStep
      split
      · exact dictGet_append_left nm _ _ m h
      · exact h

theorem registerMockStep_idem (codebase : Dict String) (st : ExecutorState) (n : String) :
    registerMockStep codebase (registerMockStep codebase st n) n =
      registerMockStep codebase st n := by
  unfold registerMockStep
  split
  · rw [if_neg]
    simp [dictMem, create_mock_module]
  · rfl

theorem registerMocks_keys_nodup (st : ExecutorState) (names : List String)
    (codebase : Dict String) (h : (dictKeys st.mocked_modules).Nodup) :
    (dictKeys (registerMocks st names codebase).mocked_modules).Nodup := by
  induction names generalizing st with
  | nil => exact h
  | cons n rest ih =>
      rw [show registerMocks st (n :: rest) codebase =
        registerMocks (registerMockStep codebase st n) rest codebase from rfl]
      apply ih
      unfold registerMockStep
      split
      · rename_i hc
        have hmem : dictMem n st.mocked_modules = false := by
          simp only [Bool.and_eq_true, Bool.not_eq_true'] at hc
          exact hc.2
        have hnot : n ∉ dictKeys st.mocked_modules := fun hx =>
          by rw [(dictMem_iff n st.mocked_modules).mpr hx] at hmem; cases hmem
        simp only [dictKeys, create_mock_module, List.map_append, List.map_cons,
          List.map_nil, List.nodup_append]
        exact ⟨h, List.nodup_singleton n, by
          intro x hx hx2
          simp only [List.mem_singleton] at hx2
          exact hnot (hx2 ▸ hx)⟩
      · exact h

/-! ## Concrete inputs used by counterexamples and witnesses -/

/-- A snippet whose text does not parse (`ast.parse` raises). -/
def badSnippet : PyCode := ⟨"def f(:", none⟩

/-- A snippet importing the single external name `extpkg`. -/
def importExtpkg : PyCode := ⟨"def g(): pass", some [.imp [⟨"extpkg", []⟩]]⟩

/-- An empty filesystem state. -/
def w0 : World := ⟨[], 0⟩

/-- A snippet importing the single external name `alpha`. -/
def importAlpha : PyCode := ⟨"a", some [.imp [⟨"alpha", []⟩]]⟩

/-- A snippet importing the single external name `beta`. -/
def importBeta : PyCode := ⟨"b", some [.imp [⟨"beta", []⟩]]⟩

/-- First call on a fresh executor: registers a stand-in for `alpha`. -/
def firstRun : RunOut :=
  run (.finished 0 "" "") (initExecutor []) importAlpha [] [] w0

/-- Second call on the same executor: its snippet imports only `beta`. -/
def secondRun : RunOut :=
  run (.finished 0 "" "") firstRun.state importBeta [] firstRun.sysm firstRun.world

/-! ## Claim C1 -/

/-- C1 counterexample: the sandbox is not a total function. For a snippet
whose text does not parse, `analyze_imports` (called by
`mock_external_modules` before the try block of `run`) raises, and the
exception propagates past the boundary of `run` instead of being captured
as a result with success=false. -/
theorem run_raises_on_unparsable_snippet :
    (run (.finished 0 "" "") (initExecutor []) badSnippet [] [] w0).result =
      Except.error PyExn.parseError := rfl

/-- C1 (amended): for every snippet whose text parses, `run` returns an
ExecutionResult, and an exception raised while running the child process
is captured as success=false with the exception's message as output;
errors while preparing the sandbox (before the try block) are not
captured. -/
theorem run_total_for_parsable (spawn : SpawnOutcome) (st : ExecutorState)
    (code : PyCode) (codebase : Dict String) (sysm : SysModules) (w : World)
    (stmts : List ImportStmt) (hp : code.parsed = some stmts) :
    ∃ r : ExecutionResult, (run spawn st code codebase sysm w).result = .ok r ∧
      ∀ msg, spawn = .raisedExn msg → r.success = false ∧ r.output = msg := by
  refine ⟨_, run_result_eq spawn st code codebase sysm w stmts hp, ?_⟩
  rintro msg rfl
  exact ⟨rfl, rfl⟩

/-- Witness for C1 (amended) at a concrete input. -/
theorem run_total_for_parsable_witness :
    ∃ r : ExecutionResult,
      (run (.raisedExn "boom") (initExecutor []) importExtpkg [] [] w0).result = .ok r ∧
      ∀ msg, SpawnOutcome.raisedExn "boom" = .raisedExn msg →
        r.success = false ∧ r.output = msg :=
  run_total_for_parsable (.raisedExn "boom") (initExecutor []) importExtpkg [] [] w0
    [.imp [⟨"extpkg", []⟩]] rfl

/-! ## Claim C2 -/

/-- C2: cleanup invariant. After every `run` call, on every exit path
(normal result, timeout, internal exception, or propagated preparation
error), the module-resolution table contains none of the stand-ins
registered during that call, and the scoped temporary directory no
longer exists. -/
theorem run_cleanup_invariant (spawn : SpawnOutcome) (st : ExecutorState)
    (code : PyCode) (codebase : Dict String) (sysm : SysModules) (w : World) :
    (∀ nm, nm ∈ dictKeys (run spawn st code codebase sysm w).state.mocked_modules →
        nm ∉ dictKeys st.mocked_modules →
        dictGet nm (run spawn st code codebase sysm w).sysm = none) ∧
    (run spawn st code codebase sysm w).tempDir ∉
      (run spawn st code codebase sysm w).world.dirs := by
  constructor
  · intro nm h1 h2
    cases hp : code.parsed with
    | none =>
        have hstate := (run_unparsable_eq spawn st code codebase sysm w hp).2.1
        rw [hstate] at h1
        exact absurd h1 h2
    | some stmts =>
        have hstate := (run_state_eq spawn st code codebase sysm w stmts hp).1
        have hsys := (run_state_eq spawn st code codebase sysm w stmts hp).2
        rw [hsys]
        rw [hstate] at h1
        unfold unpatch_modules
        simp only [dictKeys] at h1
        exact dictGet_foldl_del nm _ _ h1
  · exact run_tempdir_removed spawn st code codebase sysm w

/-- Witness for C2 at a concrete input: the stand-in for `extpkg`
registered during the call is gone from the module table afterwards, and
the scoped directory is gone from the filesystem. -/
theorem run_cleanup_invariant_witness :
    dictGet "extpkg"
      (run (.finished 0 "" "") (initExecutor []) importExtpkg [] [] w0).sysm = none ∧
    (run (.finished 0 "" "") (initExecutor []) importExtpkg [] [] w0).tempDir ∉
      (run (.finished 0 "" "") (initExecutor []) importExtpkg [] [] w0).world.dirs :=
  ⟨(run_cleanup_invariant (.finished 0 "" "") (initExecutor []) importExtpkg [] [] w0).1
      "extpkg" (by decide) (by decide),
    (run_cleanup_invariant (.finished 0 "" "") (initExecutor []) importExtpkg [] [] w0).2⟩

/-! ## Claim C3 -/

/-- C3: the returned result has success true exactly when the child exit
status is zero, its output is stdout when successful and stderr
otherwise, and exceeding the wall-clock budget (10 time units) yields a
captured result (no exception) with success=false and the fixed sentinel
timeout message. -/
theorem run_success_iff_exit_zero (spawn : SpawnOutcome) (st : ExecutorState)
    (code : PyCode) (codebase : Dict String) (sysm : SysModules) (w : World)
    (stmts : List ImportStmt) (hp : code.parsed = some stmts) :
    executionTimeout = 10 ∧
    (∀ rc out errS, spawn = .finished rc out errS →
      ∃ r : ExecutionResult, (run spawn st code codebase sysm w).result = .ok r ∧
        (r.success = true ↔ rc = 0) ∧ r.output = (if rc = 0 then out else errS)) ∧
    (spawn = .timedOut →
      ∃ r : ExecutionResult, (run spawn st code codebase sysm w).result = .ok r ∧
        r.success = false ∧ r.output = "Execution timed out") := by
  refine ⟨rfl, ?_, ?_⟩
  · rintro rc out errS rfl
    refine ⟨_, run_result_eq _ _ _ _ _ _ _ hp, ?_, ?_⟩
    · exact beq_iff_eq
    · by_cases h : rc = 0 <;> simp [h]
  · rintro rfl
    exact ⟨_, run_result_eq _ _ _ _ _ _ _ hp, rfl, rfl⟩

/-- Witness for C3 at a concrete input: a child that exits with status 1. -/
theorem run_success_iff_exit_zero_witness :
    ∃ r : ExecutionResult,
      (run (.finished 1 "out" "err") (initExecutor []) importExtpkg [] [] w0).result = .ok r ∧
      (r.success = true ↔ (1 : Int) = 0) ∧
      r.output = (if (1 : Int) = 0 then "out" else "err") :=
  (run_success_iff_exit_zero (.finished 1 "out" "err") (initExecutor []) importExtpkg [] [] w0
    [.imp [⟨"extpkg", []⟩]] rfl).2.1 1 "out" "err" rfl

/-! ## Claim C4 -/

/-- C4 counterexample: `stand_ins_used` is not scoped to the current call.
The first call on a fresh executor registers a stand-in for `alpha`; the
second call's snippet imports only `beta`, yet its result reports both
`alpha` and `beta`, although `alpha` was registered during the earlier
call. -/
theorem standins_leak_across_calls :
    dictKeys firstRun.state.mocked_modules = ["alpha"] ∧
    secondRun.result = Except.ok ⟨true, "", ["alpha", "beta"]⟩ := ⟨rfl, rfl⟩

/-- C4 (amended): `stand_ins_used` equals the full key list of the
executor's persistent stand-in cache after the call, which contains the
names registered during this call together with every name registered
during earlier calls on the same executor. -/
theorem standins_used_cumulative (spawn : SpawnOutcome) (st : ExecutorState)
    (code : PyCode) (codebase : Dict String) (sysm : SysModules) (w : World)
    (stmts : List ImportStmt) (hp : code.parsed = some stmts) :
    ∃ r : ExecutionResult, (run spawn st code codebase sysm w).result = .ok r ∧
      r.mocked_modules = dictKeys (run spawn st code codebase sysm w).state.mocked_modules ∧
      ∀ nm, nm ∈ dictKeys st.mocked_modules → nm ∈ r.mocked_modules := by
  have hstate := (run_state_eq spawn st code codebase sysm w stmts hp).1
  cases spawn with
  | finished rc out errS =>
      refine ⟨_, run_result_eq _ _ _ _ _ _ _ hp, by rw [hstate], ?_⟩
      intro nm h
      exact mem_keys_registerMocks st (importedNames stmts) codebase nm h
  | timedOut =>
      refine ⟨_, run_result_eq _ _ _ _ _ _ _ hp, by rw [hstate], ?_⟩
      intro nm h
      exact mem_keys_registerMocks st (importedNames stmts) codebase nm h
  | raisedExn msg =>
      refine ⟨_, run_result_eq _ _ _ _ _ _ _ hp, by rw [hstate], ?_⟩
      intro nm h
      exact mem_keys_registerMocks st (importedNames stmts) codebase nm h

/-- Witness for C4 (amended) at the concrete second call of the
counterexample pair. -/
theorem standins_used_cumulative_witness :
    ∃ r : ExecutionResult,
      (run (.finished 0 "" "") firstRun.state importBeta [] firstRun.sysm firstRun.world).result
        = .ok r ∧
      r.mocked_modules = dictKeys
        (run (.finished 0 "" "") firstRun.state importBeta [] firstRun.sysm
          firstRun.world).state.mocked_modules ∧
      ∀ nm, nm ∈ dictKeys firstRun.state.mocked_modules → nm ∈ r.mocked_modules :=
  standins_used_cumulative (.finished 0 "" "") firstRun.state importBeta []
    firstRun.sysm firstRun.world [.imp [⟨"beta", []⟩]] rfl

/-! ## Claim C5 -/

/-- C5: `is_external_module` returns false exactly when the module name
is a builtin or standard module known to the host runtime (regardless of
the codebase) or occurs as a substring of some path key of the codebase;
otherwise it returns true. -/
theorem is_external_module_spec (st : ExecutorState) (module_name : String)
    (codebase : Dict String) :
    is_external_module st module_name codebase = false ↔
      (module_name ∈ st.stdlib_modules ∨
        ∃ p ∈ dictKeys codebase, ∃ pre post,
          p.toList = pre ++ module_name.toList ++ post) := by
  constructor
  · intro hfalse
    by_cases h1 : module_name ∈ st.stdlib_modules
    · exact Or.inl h1
    · right
      rw [is_external_module, if_neg h1] at hfalse
      by_cases h2 : codebase.any (fun kv => strContains kv.1 module_name) = true
      · exact (any_strContains_iff codebase module_name).mp h2
      · rw [if_neg h2] at hfalse
        cases hfalse
  · intro h
    rcases h with h1 | h2
    · simp [is_external_module, h1]
    · rw [is_external_module]
      by_cases h1 : module_name ∈ st.stdlib_modules
      · simp [h1]
      · rw [if_neg h1, if_pos ((any_strContains_iff codebase module_name).mpr h2)]

/-! ## Claim C6 -/

theorem modifyLoopAux_bound (runTestsFn : GeneratedCode → List TestResult × List TestResult)
    (repairFn : GeneratedCode → String → String → GeneratedCode) :
    ∀ (fuel count : Nat) (code : GeneratedCode)
      (last : Option (List TestResult × List TestResult)),
      count ≤ (modifyLoopAux runTestsFn repairFn fuel count code last).iterations ∧
      (modifyLoopAux runTestsFn repairFn fuel count code last).iterations ≤ count + fuel ∧
      ((modifyLoopAux runTestsFn repairFn fuel count code last).iterations = count + fuel ∨
        ∃ s, (modifyLoopAux runTestsFn repairFn fuel count code last).lastRun = some ([], s)) := by
  intro fuel
  induction fuel with
  | zero =>
      intro count code last
      exact ⟨Nat.le_refl _, Nat.le_add_right _ _, Or.inl (Nat.add_zero _).symm⟩
  | succ f ih =>
      intro count code last
      rcases hrt : runTestsFn code with ⟨fl, sl⟩
      simp only [modifyLoopAux, hrt]
      by_cases hr : fl.isEmpty = true
      · rw [if_pos hr]
        have hfl : fl = [] := by simpa using hr
        exact ⟨Nat.le_refl _, Nat.le_add_right _ _, Or.inr ⟨sl, by simp [hfl]⟩⟩
      · rw [if_neg hr]
        obtain ⟨ih1, ih2, ih3⟩ := ih (count + 1) (repairRound repairFn code fl) (some (fl, sl))
        refine ⟨Nat.le_trans (Nat.le_succ _) ih1, by omega, ?_⟩
        rcases ih3 with h | h
        · exact Or.inl (by omega)
        · exact Or.inr h

/-- C6: the repair loop of modify_code, for any iteration cap and any
collaborators, always terminates in a state whose iteration counter is
between 0 and the cap; at every intermediate point the counter never
exceeds its start value plus the remaining fuel, and the loop ends
either with the counter at the cap or with an empty failing list (the
Done state). -/
theorem modify_code_loop_bound (runTestsFn : GeneratedCode → List TestResult × List TestResult)
    (repairFn : GeneratedCode → String → String → GeneratedCode)
    (cap : Nat) (code : GeneratedCode) :
    (∀ fuel count c last,
        count ≤ (modifyLoopAux runTestsFn repairFn fuel count c last).iterations ∧
        (modifyLoopAux runTestsFn repairFn fuel count c last).iterations ≤ count + fuel) ∧
    (modify_code_loop runTestsFn repairFn cap code).iterations ≤ cap ∧
    ((modify_code_loop runTestsFn repairFn cap code).iterations = cap ∨
      ∃ s, (modify_code_loop runTestsFn repairFn cap code).lastRun = some ([], s)) := by
  refine ⟨fun fuel count c last =>
    ⟨(modifyLoopAux_bound runTestsFn repairFn fuel count c last).1,
      (modifyLoopAux_bound runTestsFn repairFn fuel count c last).2.1⟩, ?_, ?_⟩
  · have h := (modifyLoopAux_bound runTestsFn repairFn cap 0 code none).2.1
    simpa [modify_code_loop] using h
  · have h := (modifyLoopAux_bound runTestsFn repairFn cap 0 code none).2.2
    simpa [modify_code_loop] using h

/-! ## Claim C7 -/

/-- C7: in a repair round the failing tests are processed front to back
(the first equation), the round's final ChangeSet is exactly the revision
produced by the request for the last failing test, superseding the
earlier revisions wholesale (the second and fourth equations), and one
revision is requested per failing test (the third equation). -/
theorem repair_round_policy (repairFn : GeneratedCode → String → String → GeneratedCode)
    (code : GeneratedCode) (failing : List TestResult) (t : TestResult) :
    repairRound repairFn code (t :: failing) =
      repairRound repairFn (repairFn code t.test_code t.message) failing ∧
    repairRound repairFn code (failing ++ [t]) =
      repairFn (repairRound repairFn code failing) t.test_code t.message ∧
    (repairRevisions repairFn code failing).length = failing.length ∧
    repairRound repairFn code failing = (repairRevisions repairFn code failing).getLastD code := by
  refine ⟨rfl, ?_, ?_, ?_⟩
  · simp [repairRound, List.foldl_append]
  · induction failing generalizing code with
    | nil => rfl
    | cons t2 ts ih => simp [repairRevisions, ih]
  · induction failing generalizing code with
    | nil => rfl
    | cons t2 ts ih =>
        simp only [repairRevisions, repairRound, List.foldl_cons, List.getLastD_cons]
        exact ih (repairFn code t2.test_code t2.message)

/-! ## Claim C8 -/

/-- C8: stand-in idempotence. Requesting a stand-in a second time for the
same name within one registration pass changes nothing (first conjunct),
a cached stand-in is returned unchanged by any later request instead of
being recreated (second conjunct), and the cache keeps exactly one entry
per distinct module name (third conjunct). -/
theorem standin_idempotent (st : ExecutorState) (codebase : Dict String) :
    (∀ module_name, registerMocks st [module_name, module_name] codebase =
        registerMocks st [module_name] codebase) ∧
    (∀ names module_name m, dictGet module_name st.mocked_modules = some m →
        dictGet module_name (registerMocks st names codebase).mocked_modules = some m) ∧
    (∀ names, (dictKeys st.mocked_modules).Nodup →
        (dictKeys (registerMocks st names codebase).mocked_modules).Nodup) := by
  refine ⟨?_, ?_, ?_⟩
  · intro n
    exact registerMockStep_idem codebase st n
  · intro names n m h
    exact dictGet_registerMocks st names codebase n m h
  · intro names h
    exact registerMocks_keys_nodup st names codebase h

/-- Executor state with one cached stand-in, for the C8 witness. -/
def stW : ExecutorState := ⟨[("numpylike", ⟨0, "numpylike"⟩)], 1, []⟩

/-- Witness for C8 at concrete inputs. -/
theorem standin_idempotent_witness :
    registerMocks stW ["numpylike", "numpylike"] [] = registerMocks stW ["numpylike"] [] ∧
    dictGet "numpylike" (registerMocks stW ["otherpkg"] []).mocked_modules =
      some ⟨0, "numpylike"⟩ ∧
    (dictKeys (registerMocks stW ["otherpkg"] []).mocked_modules).Nodup :=
  ⟨(standin_idempotent stW []).1 "numpylike",
    (standin_idempotent stW []).2.1 ["otherpkg"] "numpylike" ⟨0, "numpylike"⟩ (by decide),
    (standin_idempotent stW []).2.2 ["otherpkg"] (by decide)⟩

/-! ## Claim C9 -/

/-- C9: a test-generation response that cannot be parsed into the
expected structured shape makes run_tests fail with the propagated
exception (the re-raised ValueError for invalid JSON, the uncaught
validation error for JSON of the wrong shape); no TestOutcome lists are
produced and no retry happens. -/
theorem malformed_testgen_raises (raw : String) (spawnFor : Nat → SpawnOutcome)
    (modified_code : GeneratedCode) (codebase : List CodeFile)
    (st : ExecutorState) (sysm : SysModules) (w : World) :
    run_tests (.badJson raw) spawnFor modified_code codebase st sysm w =
      .error (.valueError ("Failed to parse LLM response as JSON. Raw response: " ++ raw)) ∧
    run_tests (.badShape raw) spawnFor modified_code codebase st sysm w =
      .error .validationError :=
  ⟨rfl, rfl⟩

/-! ## Claim C10 -/

theorem runTestsLoop_partition (spawnFor : Nat → SpawnOutcome) (updated : Dict String) :
    ∀ (tests : List TestCode) (idx : Nat) (st : ExecutorState) (sysm : SysModules) (w : World),
      (∀ t ∈ tests, t.test_code.parsed ≠ none) →
      ∃ out : TesterOut, runTestsLoop spawnFor updated idx tests st sysm w = .ok out ∧
        ∃ outcomes : List TestResult,
          List.Forall₂ (fun (o : TestResult) (t : TestCode) =>
            o.test_code = t.test_code.text ∧ o.original_code_path = t.original_code_path)
            outcomes tests ∧
          out.unsuccessful = outcomes.filter (fun o => !o.success) ∧
          out.successful = outcomes.filter (fun o => o.success) := by
  intro tests
  induction tests with
  | nil =>
      intro idx st sysm w _
      exact ⟨⟨[], [], st, sysm, w⟩, rfl, [], List.Forall₂.nil, rfl, rfl⟩
  | cons t ts ih =>
      intro idx st sysm w hp
      have hpt : t.test_code.parsed ≠ none := hp t (List.mem_cons_self t ts)
      obtain ⟨stmts, hstmts⟩ : ∃ s, t.test_code.parsed = some s := by
        cases h : t.test_code.parsed with
        | none => exact absurd h hpt
        | some s => exact ⟨s, rfl⟩
      have hres := run_result_eq (spawnFor idx) st t.test_code updated sysm w stmts hstmts
      obtain ⟨rest, hrest, outcomes, hfa, hu, hs⟩ :=
        ih (idx + 1) (run (spawnFor idx) st t.test_code updated sysm w).state
          (run (spawnFor idx) st t.test_code updated sysm w).sysm
          (run (spawnFor idx) st t.test_code updated sysm w).world
          (fun t2 ht2 => hp t2 (List.mem_cons_of_mem _ ht2))
      simp only [runTestsLoop, hres, hrest]
      set r := (match (spawnFor idx) with
        | SpawnOutcome.finished rc out errOut =>
            (⟨rc == 0, if rc == 0 then out else errOut,
              dictKeys (registerMocks st (importedNames stmts) updated).mocked_modules⟩ :
                ExecutionResult)
        | SpawnOutcome.timedOut =>
            ⟨false, "Execution timed out",
              dictKeys (registerMocks st (importedNames stmts) updated).mocked_modules⟩
        | SpawnOutcome.raisedExn msg =>
            ⟨false, msg,
              dictKeys (registerMocks st (importedNames stmts) updated).mocked_modules⟩) with hr
      cases hrs : r.success with
      | true =>
          rw [if_pos rfl]
          refine ⟨_, rfl,
            ⟨r.success, r.output, t.test_code.text, t.original_code_path⟩ :: outcomes,
            List.Forall₂.cons ⟨rfl, rfl⟩ hfa, ?_, ?_⟩
          · simp [List.filter, hrs, hu]
          · simp [List.filter, hrs, hs]
      | false =>
          rw [if_neg (by simp [hrs])]
          refine ⟨_, rfl,
            ⟨r.success, r.output, t.test_code.text, t.original_code_path⟩ :: outcomes,
            List.Forall₂.cons ⟨rfl, rfl⟩ hfa, ?_, ?_⟩
          · simp [List.filter, hrs, hu]
          · simp [List.filter, hrs, hs]

/-- C10 counterexample: run_tests does not return a result pair for every
list of generated tests. A generated test whose code does not parse makes
the sandbox raise during preparation, and the exception propagates out of
run_tests. -/
theorem run_tests_raises_on_unparsable_test :
    run_tests (.valid [⟨badSnippet, "test_a.py", "a.py"⟩]) (fun _ => .finished 0 "" "")
      ⟨[]⟩ [] (initExecutor []) [] w0 = .error .parseError := rfl

/-- C10 (amended): whenever every generated test's code parses (so each
sandbox execution returns a result), run_tests returns the pair of lists
holding exactly one TestOutcome per generated test in generation order, a
test's outcome landing in the failing list exactly when its sandbox run
reported success=false and in the passing list otherwise. -/
theorem run_tests_partition (tests : List TestCode) (spawnFor : Nat → SpawnOutcome)
    (modified_code : GeneratedCode) (codebase : List CodeFile)
    (st : ExecutorState) (sysm : SysModules) (w : World)
    (hp : ∀ t ∈ tests, t.test_code.parsed ≠ none) :
    ∃ out : TesterOut,
      run_tests (.valid tests) spawnFor modified_code codebase st sysm w = .ok out ∧
      ∃ outcomes : List TestResult,
        List.Forall₂ (fun (o : TestResult) (t : TestCode) =>
          o.test_code = t.test_code.text ∧ o.original_code_path = t.original_code_path)
          outcomes tests ∧
        out.unsuccessful = outcomes.filter (fun o => !o.success) ∧
        out.successful = outcomes.filter (fun o => o.success) :=
  runTestsLoop_partition spawnFor
    (applyChanges (toDict codebase) modified_code.code_changes) tests 0 st sysm w hp

/-- Witness for C10 (amended) at a concrete input: one parsable test whose
child process exits with status 1. -/
theorem run_tests_partition_witness :
    ∃ out : TesterOut,
      run_tests (.valid [⟨importExtpkg, "test_a.py", "a.py"⟩]) (fun _ => .finished 1 "" "fail")
        ⟨[]⟩ [] (initExecutor []) [] w0 = .ok out ∧
      ∃ outcomes : List TestResult,
        List.Forall₂ (fun (o : TestResult) (t : TestCode) =>
          o.test_code = t.test_code.text ∧ o.original_code_path = t.original_code_path)
          outcomes [⟨importExtpkg, "test_a.py", "a.py"⟩] ∧
        out.unsuccessful = outcomes.filter (fun o => !o.success) ∧
        out.successful = outcomes.filter (fun o => o.success) :=
  run_tests_partition [⟨importExtpkg, "test_a.py", "a.py"⟩] (fun _ => .finished 1 "" "fail")
    ⟨[]⟩ [] (initExecutor []) [] w0 (by decide)

end Autonoma
